import Mathlib

/-!
Verification development for the RPC System Calls subsystem
(src/RPCSysCalls/src/client.c and the util.c / protocol.h / server.c
translation unit in src/unnamed/part_013).

The embedding models the wire as a sequence of delivery events ("chunks"):
each `read(2)` call on the connection consumes at most one pending chunk,
which reproduces the short-read behaviour of a TCP stream.  Machine
integers are modelled as `Nat`/`Int` with explicit reductions modulo
`2^32` / `2^16`; two's-complement reinterpretation is explicit
(`ofI32`, `ofI16`).  The host is the usual little-endian POSIX platform
the code targets (x86-64 Linux), so `htonl`/`ntohl` are byte swaps and
`size_t` is 8 bytes.
-/

namespace RPCVerify

/-! ## Scalar byte codecs

`htonl(v)` followed by storing the 4-byte result in memory puts the
big-endian bytes of `v` on the wire; `ntohl` of a 4-byte load is the
big-endian reading of those bytes.  `beBytes32 n` is therefore the wire
image of the 32-bit value `n` and `beVal32` its decoding.  Digits are
taken modulo 256 so the definitions are total; for `n < 2^32` they are
exact. -/

def beBytes32 (n : Nat) : List Nat :=
  [n / 2 ^ 24 % 256, n / 2 ^ 16 % 256, n / 2 ^ 8 % 256, n % 256]

def beVal32 (bs : List Nat) : Nat :=
  bs.getD 0 0 * 2 ^ 24 + bs.getD 1 0 * 2 ^ 16 + bs.getD 2 0 * 2 ^ 8 + bs.getD 3 0

def beBytes16 (n : Nat) : List Nat :=
  [n / 2 ^ 8 % 256, n % 256]

def beVal16 (bs : List Nat) : Nat :=
  bs.getD 0 0 * 2 ^ 8 + bs.getD 1 0

/-- Bit pattern of a C `int32_t` value as an unsigned 32-bit number
(the effect of `memcpy`ing a signed int into a `uint32_t`). -/
def toU32 (v : Int) : Nat := (v % (2 ^ 32 : Int)).toNat

/-- Two's-complement reinterpretation of an unsigned 32-bit pattern as a
C `int32_t` (the effect of storing a `uint32_t` into an `int32_t`). -/
def ofI32 (n : Nat) : Int :=
  if n % 2 ^ 32 < 2 ^ 31 then (n % 2 ^ 32 : Nat) else (n % 2 ^ 32 : Nat) - 2 ^ 32

def toU16 (v : Int) : Nat := (v % (2 ^ 16 : Int)).toNat

def ofI16 (n : Nat) : Int :=
  if n % 2 ^ 16 < 2 ^ 15 then (n % 2 ^ 16 : Nat) else (n % 2 ^ 16 : Nat) - 2 ^ 16

theorem beVal32_beBytes32 (n : Nat) : beVal32 (beBytes32 n) = n % 2 ^ 32 := by
  simp only [beBytes32, beVal32, List.getD_cons_zero, List.getD_cons_succ]
  omega

theorem beVal16_beBytes16 (n : Nat) : beVal16 (beBytes16 n) = n % 2 ^ 16 := by
  simp only [beBytes16, beVal16, List.getD_cons_zero, List.getD_cons_succ]
  omega

theorem ofI32_toU32 (v : Int) (h1 : -(2 ^ 31) ≤ v) (h2 : v < 2 ^ 31) :
    ofI32 (toU32 v) = v := by
  unfold ofI32 toU32
  omega

theorem ofI16_toU16 (v : Int) (h1 : -(2 ^ 15) ≤ v) (h2 : v < 2 ^ 15) :
    ofI16 (toU16 v) = v := by
  unfold ofI16 toU16
  omega

theorem toU32_lt (v : Int) : toU32 v < 2 ^ 32 := by
  unfold toU32; omega

/-! ## Length header of a frame

`send_to_connection` writes `size_t data_size_net = htonl(data_size);`
(8 bytes: the `uint32_t` result of `htonl` zero-extended to `size_t`) and
then the payload.  On a little-endian host the 8 bytes written are the
big-endian image of `data_size mod 2^32` followed by four zero bytes.
`read_from_connection` reads 8 bytes into a `size_t` and applies
`ntohl`, which truncates to the low 32 bits and byte-swaps, recovering
exactly `decLen` below. -/

def encLen (n : Nat) : List Nat := beBytes32 n ++ [0, 0, 0, 0]

def decLen (bs : List Nat) : Nat := beVal32 bs

theorem encLen_length (n : Nat) : (encLen n).length = 8 := rfl

theorem decLen_encLen (n : Nat) : decLen (encLen n) = n % 2 ^ 32 := by
  show beVal32 (beBytes32 n ++ [0, 0, 0, 0]) = n % 2 ^ 32
  simp only [beBytes32, List.cons_append, List.nil_append, beVal32,
    List.getD_cons_zero, List.getD_cons_succ]
  omega

/-! ## Connection model

A `Conn` is the pending inbound byte stream, divided into the units in
which the kernel will hand bytes to `read(2)`.  A `Chunk.rerr e` marks a
point where `read` fails with `-1` and `errno = e`.  `sysRead` is one
`read(fd, buf, count)` call: it returns at most `count` bytes from the
first pending chunk (a short read when the chunk is larger is split), it
returns zero bytes at end of stream (peer closed), and it returns zero
bytes immediately when `count = 0` (POSIX: a read of zero bytes returns
zero). -/

inductive Chunk where
  | bytes (bs : List Nat)
  | rerr (e : Int)
deriving DecidableEq, Repr

structure Conn where
  chunks : List Chunk
deriving DecidableEq, Repr

inductive ReadRes where
  | errR (e : Int)
  | okR (bs : List Nat)
deriving DecidableEq, Repr

def sysRead (c : Conn) (count : Nat) : ReadRes × Conn :=
  if count = 0 then (.okR [], c)
  else
    match c.chunks with
    | [] => (.okR [], c)
    | .rerr e :: rest => (.errR e, ⟨rest⟩)
    | .bytes bs :: rest =>
        if bs.length ≤ count then (.okR bs, ⟨rest⟩)
        else (.okR (bs.take count), ⟨.bytes (bs.drop count) :: rest⟩)

theorem sysRead_zero (c : Conn) : sysRead c 0 = (.okR [], c) := by
  simp [sysRead]

theorem sysRead_nil (c : Conn) (count : Nat) (h : c.chunks = []) :
    sysRead c count = (.okR [], c) := by
  unfold sysRead
  rw [h]
  split <;> rfl

theorem sysRead_bytes_all (bs : List Nat) (rest : List Chunk) (count : Nat)
    (h : count ≠ 0) (h2 : bs.length ≤ count) :
    sysRead ⟨.bytes bs :: rest⟩ count = (.okR bs, ⟨rest⟩) := by
  unfold sysRead
  rw [if_neg h]
  exact if_pos h2

theorem sysRead_bytes_split (bs : List Nat) (rest : List Chunk) (count : Nat)
    (h : count ≠ 0) (h2 : count < bs.length) :
    sysRead ⟨.bytes bs :: rest⟩ count
      = (.okR (bs.take count), ⟨.bytes (bs.drop count) :: rest⟩) := by
  unfold sysRead
  rw [if_neg h]
  exact if_neg (by omega)

/-- Result of `read_from_connection`.  `closed` is the NULL return with
`errno = CONNECTION_CLOSED`; `terr e` is the NULL return after a failed
`read` (`errno = e`); `ok dataSize received` is a returned buffer:
`dataSize` is the decoded length header (the `malloc`ed size) and
`received` the bytes the single payload `read` actually deposited in it.
The code performs no retry loop, so `received` can be shorter than
`dataSize`. -/
inductive RecvRes where
  | closed
  | terr (e : Int)
  | ok (dataSize : Nat) (received : List Nat)
deriving DecidableEq, Repr

/-- Payload step of `read_from_connection`: one `read` of `data_size`
bytes into the fresh buffer.  A zero-byte result (end of stream, or a
requested count of zero) is taken for a closed connection by the code. -/
def readPayload (data_size : Nat) (c1 : Conn) : RecvRes × Conn :=
  match sysRead c1 data_size with
  | (.errR e, c2) => (.terr e, c2)
  | (.okR [], c2) => (.closed, c2)
  | (.okR (p :: ps), c2) => (.ok data_size (p :: ps), c2)

/-- Model of `read_from_connection` (util.c).  Reads an 8-byte length
header, converts it with `ntohl`, allocates, and performs one payload
read.  `malloc` is modelled as always succeeding (glibc `malloc(0)`
returns a non-NULL pointer).  If the header read is short, the C code
leaves the unread tail of `data_size` uninitialized and proceeds; we
model the unwritten bytes as zero — no theorem below depends on that
case. -/
def read_from_connection (c : Conn) : RecvRes × Conn :=
  match sysRead c 8 with
  | (.errR e, c1) => (.terr e, c1)
  | (.okR [], c1) => (.closed, c1)
  | (.okR (b :: bs), c1) => readPayload (decLen (b :: bs)) c1

/-- Wire bytes produced by `send_to_connection(fd, data, data_size)`:
the 8-byte length header followed by the payload. -/
def send_to_connection (data : List Nat) : List Nat :=
  encLen data.length ++ data

/-- A connection whose pending bytes are exactly the given frames, each
delivered as one chunk (header and payload together), as produced by a
peer calling `send_to_connection` once per frame. -/
def connOfFrames (frames : List (List Nat)) : Conn :=
  ⟨frames.map fun f => .bytes (send_to_connection f)⟩

theorem connOfFrames_cons (f : List Nat) (fs : List (List Nat)) :
    connOfFrames (f :: fs) = ⟨.bytes (send_to_connection f) :: (connOfFrames fs).chunks⟩ := rfl

/-- Receiving from a connection whose head is a whole nonempty frame
yields exactly that frame's payload and consumes exactly that frame. -/
theorem read_from_connection_frame (f : List Nat) (fs : List (List Nat))
    (hne : f ≠ []) (hlt : f.length < 2 ^ 32) :
    read_from_connection (connOfFrames (f :: fs)) = (.ok f.length f, connOfFrames fs) := by
  obtain ⟨p, ps, rfl⟩ : ∃ p ps, f = p :: ps := by
    cases f with
    | nil => exact absurd rfl hne
    | cons p ps => exact ⟨p, ps, rfl⟩
  rw [connOfFrames_cons,
    show send_to_connection (p :: ps) = encLen (p :: ps).length ++ (p :: ps) from rfl]
  have hsplit : sysRead ⟨.bytes (encLen (p :: ps).length ++ (p :: ps)) :: (connOfFrames fs).chunks⟩ 8
      = (.okR (encLen (p :: ps).length), ⟨.bytes (p :: ps) :: (connOfFrames fs).chunks⟩) := by
    rw [sysRead_bytes_split (encLen (p :: ps).length ++ (p :: ps))
      ((connOfFrames fs).chunks) 8 (by decide)
      (by simp only [List.length_append, encLen_length, List.length_cons]; omega)]
    rw [show (8 : Nat) = (encLen (p :: ps).length).length from (encLen_length _).symm,
      List.take_left, List.drop_left]
  unfold read_from_connection
  rw [hsplit]
  have henc : encLen (p :: ps).length = (p :: ps).length / 2 ^ 24 % 256 ::
      ((p :: ps).length / 2 ^ 16 % 256 :: ((p :: ps).length / 2 ^ 8 % 256 ::
      ((p :: ps).length % 256 :: [0, 0, 0, 0]))) := rfl
  rw [henc]
  show readPayload (decLen _) _ = _
  rw [← henc, decLen_encLen, Nat.mod_eq_of_lt hlt]
  unfold readPayload
  rw [sysRead_bytes_all _ _ _ (by simp) le_rfl]

/-! ## Typed value transfer (`read_data_of_type` / `send_data_of_type`)

Error codes from error.h used by the modelled functions. -/

def RP_SUCCESS : Int := 0
def CONNECTION_CLOSED : Int := -50
def SERVER_INVALID_CALL_TYPE : Int := -201
def SERVER_ERROR_RECIEVING_RPC_ARGS : Int := -800
def CLIENT_ERROR_RECIEVING_RPC_RESULT : Int := -804
def CLIENT_ERROR_RECIEVING_RPC_ERRNO : Int := -805

inductive var_type where
  | INT32
  | UINT32
  | INT16
deriving DecidableEq, Repr

/-- Payload bytes emitted by `send_data_of_type` (util.c): the value's
bit pattern is copied into an unsigned temporary, converted with
`htonl`/`htons` and framed (`send_to_connection` adds the header). -/
def send_data_of_type (t : var_type) (v : Int) : List Nat :=
  match t with
  | .INT32 => beBytes32 (toU32 v)
  | .UINT32 => beBytes32 (toU32 v)
  | .INT16 => beBytes16 (toU16 v)

/-- Model of `read_data_of_type` (util.c): receive one frame, dereference
the buffer at the type's width and convert with `ntohl`/`ntohs`.
Returns `.ok value` for the C's `0` return with `*var = value`, and
`.error e` for the `-1` return with `errno = e` (a closed connection
left `errno = CONNECTION_CLOSED`).  The C dereferences the buffer at 4
(or 2) bytes whatever the frame's size; the theorems below only apply it
to frames of exactly that size, where `beVal32`/`beVal16` give that
dereference. -/
def read_data_of_type (t : var_type) (c : Conn) : Except Int Int × Conn :=
  match read_from_connection c with
  | (.closed, c1) => (.error CONNECTION_CLOSED, c1)
  | (.terr e, c1) => (.error e, c1)
  | (.ok _ payload, c1) =>
      match t with
      | .INT32 => (.ok (ofI32 (beVal32 payload)), c1)
      | .UINT32 => (.ok (beVal32 payload : Nat), c1)
      | .INT16 => (.ok (ofI16 (beVal16 payload)), c1)

theorem read_data_of_type_frame (t : var_type) (f : List Nat) (fs : List (List Nat))
    (hne : f ≠ []) (hlt : f.length < 2 ^ 32) :
    read_data_of_type t (connOfFrames (f :: fs))
      = ((match t with
          | .INT32 => .ok (ofI32 (beVal32 f))
          | .UINT32 => .ok (beVal32 f : Nat)
          | .INT16 => .ok (ofI16 (beVal16 f))), connOfFrames fs) := by
  unfold read_data_of_type
  rw [read_from_connection_frame f fs hne hlt]
  cases t <;> rfl

theorem read_u32_frame (n : Nat) (fs : List (List Nat)) (h : n < 2 ^ 32) :
    read_data_of_type .UINT32 (connOfFrames (beBytes32 n :: fs))
      = (.ok (n : Int), connOfFrames fs) := by
  rw [read_data_of_type_frame .UINT32 (beBytes32 n) fs (by simp [beBytes32]) (by simp [beBytes32])]
  rw [beVal32_beBytes32, Nat.mod_eq_of_lt h]

theorem read_i32_frame (v : Int) (fs : List (List Nat))
    (h1 : -(2 ^ 31) ≤ v) (h2 : v < 2 ^ 31) :
    read_data_of_type .INT32 (connOfFrames (beBytes32 (toU32 v) :: fs))
      = (.ok v, connOfFrames fs) := by
  rw [read_data_of_type_frame .INT32 (beBytes32 (toU32 v)) fs
    (by simp [beBytes32]) (by simp [beBytes32])]
  rw [beVal32_beBytes32, show toU32 v % 2 ^ 32 = toU32 v by
      have := toU32_lt v; omega]
  rw [ofI32_toU32 v h1 h2]

/-! ## Checksum utility (`genChecksum`, util.c)

A file is `(content, pos)`: its bytes and the read cursor.  `read` on a
regular file returns `min block_size remaining` bytes, so the loop is
deterministic.  The accumulator is a C `short` that never leaves
`[0, 255]` when the data are bytes; arithmetic is done in `Nat` and the
final value converted at the `short` return type by `ofI16`. -/

def checksumLoop (content : List Nat) (block_size : Nat) (pos : Nat) (acc : Nat) : Nat :=
  if h : ((content.drop pos).take block_size) = [] then acc
  else
    checksumLoop content block_size (pos + ((content.drop pos).take block_size).length)
      (((content.drop pos).take block_size).foldl Nat.xor acc)
termination_by content.length - pos
decreasing_by
  have hlen := List.length_pos.mpr h
  simp only [List.length_take, List.length_drop] at hlen ⊢
  omega

/-- Model of `genChecksum` (util.c): `lseek` to offset 0, repeatedly
read `block_size`-byte blocks XORing every byte into a `short`
accumulator, `lseek` back to offset 0, return the accumulator.  Returns
the checksum together with the file state `(content, pos)` after the
call.  `lseek`/`malloc`/`read` on the regular file are modelled as
succeeding, so the `-1` early-exit branches are not taken. -/
def genChecksum (content : List Nat) (pos : Nat) (block_size : Nat) :
    Int × (List Nat × Nat) :=
  (ofI16 (checksumLoop content block_size 0 0), (content, 0))

theorem checksumLoop_eq (content : List Nat) (block_size : Nat) (hbs : 0 < block_size) :
    ∀ pos acc, checksumLoop content block_size pos acc
      = (content.drop pos).foldl Nat.xor acc := by
  have main : ∀ n pos acc, content.length - pos ≤ n →
      checksumLoop content block_size pos acc = (content.drop pos).foldl Nat.xor acc := by
    intro n
    induction n with
    | zero =>
      intro pos acc hle
      have hnil : content.drop pos = [] := List.drop_eq_nil_of_le (by omega)
      unfold checksumLoop
      rw [dif_pos (by simp [hnil])]
      rw [hnil, List.foldl_nil]
    | succ n ih =>
      intro pos acc hle
      unfold checksumLoop
      by_cases h : (content.drop pos).take block_size = []
      · rw [dif_pos h]
        have hnil : content.drop pos = [] := by
          rcases List.take_eq_nil_iff.mp h with h' | h'
          · omega
          · exact h'
        rw [hnil, List.foldl_nil]
      · rw [dif_neg h]
        have hpos : pos < content.length := by
          rcases Nat.lt_or_ge pos content.length with hlt | hge
          · exact hlt
          · exact absurd (by simp [List.drop_eq_nil_of_le hge]) h
        have hlen : 0 < ((content.drop pos).take block_size).length := List.length_pos.mpr h
        rw [ih _ _ (by omega)]
        have hdrop : content.drop (pos + ((content.drop pos).take block_size).length)
            = (content.drop pos).drop block_size := by
          rw [List.length_take, List.length_drop]
          rcases le_or_lt block_size (content.length - pos) with hle2 | hlt2
          · rw [Nat.min_eq_left hle2, List.drop_drop]
          · rw [Nat.min_eq_right (by omega),
              show pos + (content.length - pos) = content.length by omega]
            rw [List.drop_eq_nil_of_le le_rfl, Eq.comm, List.drop_eq_nil_iff]
            simp only [List.length_drop]
            omega
        rw [hdrop, ← List.foldl_append, List.take_append_drop]
  intro pos acc
  exact main (content.length - pos) pos acc le_rfl

theorem foldl_xor_lt_256 :
    ∀ (l : List Nat) (acc : Nat), acc < 256 → (∀ b ∈ l, b < 256) →
      l.foldl Nat.xor acc < 256 := by
  intro l
  induction l with
  | nil =>
    intro acc hacc _
    simpa using hacc
  | cons b bs ih =>
    intro acc hacc hl
    rw [List.foldl_cons]
    have hb : b < 256 := hl b (List.mem_cons_self b bs)
    have hx : acc ^^^ b < 2 ^ 8 := Nat.xor_lt_two_pow (by omega) (by omega)
    exact ih (acc ^^^ b) (by omega) (fun x hx2 => hl x (List.mem_cons_of_mem b hx2))

/-! ## Client stub (client.c)

`O_CREAT` on Linux is octal 0100. -/

def O_CREAT : Nat := 64

/-- One invocation of a client stub function with its arguments.  For
`readC`/`writeC`, `buf` is the `count` bytes at the user's buffer
pointer that `send_to_connection(server_fd, buffer, count)` puts on the
wire (well-formedness ties `buf.length = count`). -/
inductive RpcCall where
  | openC (path : List Nat) (flags : Nat) (mode : Nat)
  | closeC (fd : Nat)
  | readC (fd : Nat) (buf : List Nat) (count : Nat)
  | writeC (fd : Nat) (buf : List Nat) (count : Nat)
  | lseekC (fd : Nat) (offset : Int) (whence : Nat)
  | checksumC (fd : Nat) (block_size : Nat)
deriving DecidableEq, Repr

/-- The ordered frames `rp_open` / `rp_close` / `rp_read` / `rp_write` /
`rp_lseek` / `rp_checksum` send before waiting for the result: first the
call-code frame (OPEN_CALL=1 … CHECKSUM_CALL=6, each a 4-byte `htonl`
frame), then the argument frames in program order.  `rp_open` sends the
pathname with its NUL terminator (`strlen(pathname)+1` bytes) and sends
the mode frame only when `flags & O_CREAT` is set.  `rp_lseek` casts the
offset to `uint32_t` before `htonl`. -/
def clientFrames : RpcCall → List (List Nat)
  | .openC path flags mode =>
      [beBytes32 1, path ++ [0], beBytes32 flags]
        ++ (if flags &&& O_CREAT ≠ 0 then [beBytes32 mode] else [])
  | .closeC fd => [beBytes32 2, beBytes32 fd]
  | .readC fd buf count => [beBytes32 3, beBytes32 fd, buf, beBytes32 count]
  | .writeC fd buf count => [beBytes32 4, beBytes32 fd, buf, beBytes32 count]
  | .lseekC fd offset whence =>
      [beBytes32 5, beBytes32 fd, beBytes32 (toU32 offset), beBytes32 whence]
  | .checksumC fd block_size => [beBytes32 6, beBytes32 fd, beBytes32 block_size]

/-- Model of `update_errno` (client.c): receive one frame, `ntohl` it and
store it into `errno`.  `none` is the `-1` return (no frame could be
read); `some e` means `errno` was set to `e`. -/
def update_errno (c : Conn) : Option Int × Conn :=
  match read_from_connection c with
  | (.closed, c1) => (none, c1)
  | (.terr _, c1) => (none, c1)
  | (.ok _ payload, c1) => (some (ofI32 (beVal32 payload)), c1)

/-- Outcome of `recieve_result` (client.c).  `fail e` is the `-1` return
with `errno = e`; `okv value remoteErrno` is the `0` return with the
decoded primary result `value` stored in the caller's buffer and
`remoteErrno = some e` exactly when an errno frame was received and the
local `errno` set to `e`. -/
inductive RecvOutcome where
  | fail (e : Int)
  | okv (value : Int) (remoteErrno : Option Int)
deriving DecidableEq, Repr

/-- Model of `recieve_result` (client.c).  After `read_data_of_type`
fills the caller's result buffer, the code does
`int32_t result; memcpy(&result, result_buffer, sizeof(result));` and
tests `result == -1` to decide whether an errno frame follows.  For the
`INT32`/`UINT32` calls the buffer is 4 bytes and `result` is its exact
reinterpretation; for `INT16` (`rp_checksum`'s 2-byte `int16_t` buffer)
the `memcpy` also reads the 2 bytes beyond the buffer — undefined
behaviour in C; `junk` is the value of those out-of-bounds stack bytes
(`junk % 2^16` occupies the high half of `result`). -/
def recieve_result (t : var_type) (junk : Nat) (c : Conn) : RecvOutcome × Conn :=
  match read_data_of_type t c with
  | (.error _, c1) => (.fail CLIENT_ERROR_RECIEVING_RPC_RESULT, c1)
  | (.ok v, c1) =>
      let result : Int :=
        match t with
        | .INT32 => v
        | .UINT32 => ofI32 v.toNat
        | .INT16 => ofI32 (toU16 v + junk % 2 ^ 16 * 2 ^ 16)
      if result = -1 then
        match update_errno c1 with
        | (none, c2) => (.fail CLIENT_ERROR_RECIEVING_RPC_ERRNO, c2)
        | (some e, c2) => (.okv v (some e), c2)
      else (.okv v none, c1)

/-- Result of the receive phase of `rp_read`.  `retv v buf` is a normal
return of `v` with the caller's buffer contents `buf`; `nullDeref`
marks the execution reaching `memcpy(buffer, remote_buffer, data_read)`
with `remote_buffer == NULL` (undefined behaviour: the code does not
check the `read_from_connection` result). -/
inductive RpReadRes where
  | retv (v : Int) (buf : List Nat)
  | nullDeref
deriving DecidableEq, Repr

/-- Receive phase of `rp_read` (client.c): receive the primary result;
when it is positive, receive the data frame and `memcpy` `data_read`
bytes of it into the caller's buffer — with no NULL check on the
received pointer.  A data frame shorter than `data_read` would make the
`memcpy` read out of bounds; the model copies the bytes that exist. -/
def rp_read_recv (buffer : List Nat) (c : Conn) : RpReadRes × Conn :=
  match recieve_result .INT32 0 c with
  | (.fail _, c1) => (.retv (-1) buffer, c1)
  | (.okv v _, c1) =>
      if v > 0 then
        match read_from_connection c1 with
        | (.ok _ payload, c2) =>
            (.retv v (payload.take v.toNat ++ buffer.drop (payload.take v.toNat).length), c2)
        | (.closed, c2) => (.nullDeref, c2)
        | (.terr _, c2) => (.nullDeref, c2)
      else (.retv v buffer, c1)

/-! ## Server handlers (server.c in part_013)

A handler's interaction with the operating system is isolated in an
oracle: `ret` is the return value of the one real system call the
handler performs, `err` the `errno` it sets on failure, `data` the bytes
a successful `read(2)` deposits, and `file` the content of the file a
`CHECKSUM` call digests. -/

structure HOracle where
  ret : Int
  err : Int
  data : List Nat
  file : List Nat
deriving DecidableEq, Repr

/-- The real operating-system call a handler performs, with the argument
values it passes. -/
inductive OsCall where
  | openCreate (path : List Nat) (flags : Nat) (mode : Nat)
  | openPlain (path : List Nat) (flags : Nat)
  | closeFd (fd : Nat)
  | readFd (fd : Nat) (count : Nat)
  | writeFd (fd : Nat) (data : List Nat) (count : Nat)
  | lseekFd (fd : Nat) (offset : Int) (whence : Nat)
  | checksumFd (fd : Nat) (block_size : Nat)
deriving DecidableEq, Repr

/-- Observable outcome of one handler run: its return value (`status`),
the final `errno`, the frames it sent to the client in order (each goes
on the wire through `send_to_connection`), the connection state after
its argument reads, and the real system calls it performed. -/
structure HandlerOut where
  status : Int
  errno : Int
  emitted : List (List Nat)
  conn : Conn
  calls : List OsCall
deriving DecidableEq, Repr

/-- Shared tail of the INT32 handlers: send the result frame and, when
the result is `-1`, the errno frame (`errno` holds the OS error then). -/
def resultFrames (result : Int) (err : Int) : List (List Nat) :=
  send_data_of_type .INT32 result
    :: (if result = -1 then [send_data_of_type .INT32 err] else [])

/-- Error ladder of a handler's frame read (`read_from_connection`): a
NULL return makes the handler return `-1` with the `errno` the read
left; otherwise the handler continues with the buffer.  This factors the
repeated `if (!ptr) return -1;` pattern of the handlers in server.c. -/
def andThenR (x : RecvRes × Conn) (k : List Nat → Conn → HandlerOut) : HandlerOut :=
  match x with
  | (.closed, c1) => ⟨-1, CONNECTION_CLOSED, [], c1, []⟩
  | (.terr e, c1) => ⟨-1, e, [], c1, []⟩
  | (.ok _ payload, c1) => k payload c1

/-- Error ladder of a handler's typed read (`read_data_of_type`),
factoring the repeated `if (read_data_of_type(...) == -1) return -1;`
pattern of the handlers in server.c. -/
def andThenT (x : Except Int Int × Conn) (k : Int → Conn → HandlerOut) : HandlerOut :=
  match x with
  | (.error e, c1) => ⟨-1, e, [], c1, []⟩
  | (.ok v, c1) => k v c1

theorem andThenR_ok (n : Nat) (payload : List Nat) (c1 : Conn)
    (k : List Nat → Conn → HandlerOut) :
    andThenR (.ok n payload, c1) k = k payload c1 := rfl

theorem andThenT_ok (v : Int) (c1 : Conn) (k : Int → Conn → HandlerOut) :
    andThenT (.ok v, c1) k = k v c1 := rfl

/-- Model of `handle_open` (server.c): read pathname frame, flags, and —
only when `flags & O_CREAT` — mode; call `open`; send result and
conditional errno frame.  A failed argument read returns `-1` with the
`errno` the read left (`SERVER_ERROR_RECIEVING_RPC_ARGS` was assigned on
entry but every exit path overwrites it). -/
def handle_open (o : HOracle) (c : Conn) : HandlerOut :=
  andThenR (read_from_connection c) fun pathname c1 =>
  andThenT (read_data_of_type .UINT32 c1) fun flagsI c2 =>
  if flagsI.toNat &&& O_CREAT ≠ 0 then
    andThenT (read_data_of_type .UINT32 c2) fun modeI c3 =>
      ⟨RP_SUCCESS, if o.ret = -1 then o.err else 0,
        resultFrames o.ret o.err, c3,
        [.openCreate pathname flagsI.toNat modeI.toNat]⟩
  else
    ⟨RP_SUCCESS, if o.ret = -1 then o.err else 0,
      resultFrames o.ret o.err, c2, [.openPlain pathname flagsI.toNat]⟩

/-- Model of `handle_close` (server.c). -/
def handle_close (o : HOracle) (c : Conn) : HandlerOut :=
  andThenT (read_data_of_type .UINT32 c) fun fdI c1 =>
    ⟨RP_SUCCESS, if o.ret = -1 then o.err else 0,
      resultFrames o.ret o.err, c1, [.closeFd fdI.toNat]⟩

/-- Model of `handle_read` (server.c): read fd, buffer frame, count;
call `read`; send the result frame, then the data read when the result
is positive, then the errno frame when it is `-1`.  A successful
`read(2)` deposits `o.data` at the start of the `malloc`ed buffer. -/
def handle_read (o : HOracle) (c : Conn) : HandlerOut :=
  andThenT (read_data_of_type .UINT32 c) fun fdI c1 =>
  andThenR (read_from_connection c1) fun buffer c2 =>
  andThenT (read_data_of_type .UINT32 c2) fun countI c3 =>
    ⟨RP_SUCCESS, if o.ret = -1 then o.err else 0,
      send_data_of_type .INT32 o.ret
        :: ((if o.ret > 0
             then [(o.data ++ buffer.drop o.data.length).take o.ret.toNat]
             else [])
          ++ (if o.ret = -1 then [send_data_of_type .INT32 o.err] else [])),
      c3, [.readFd fdI.toNat countI.toNat]⟩

/-- Model of `handle_write` (server.c): read fd, buffer frame, count;
call `write`; send the result frame — and then, exactly as written in
the source (its comment still reads "Send back read data"), a copy of
the first `data_wrote` buffer bytes when the result is positive — then
the errno frame when the result is `-1`. -/
def handle_write (o : HOracle) (c : Conn) : HandlerOut :=
  andThenT (read_data_of_type .UINT32 c) fun fdI c1 =>
  andThenR (read_from_connection c1) fun buffer c2 =>
  andThenT (read_data_of_type .UINT32 c2) fun countI c3 =>
    ⟨RP_SUCCESS, if o.ret = -1 then o.err else 0,
      send_data_of_type .INT32 o.ret
        :: ((if o.ret > 0 then [buffer.take o.ret.toNat] else [])
          ++ (if o.ret = -1 then [send_data_of_type .INT32 o.err] else [])),
      c3, [.writeFd fdI.toNat buffer countI.toNat]⟩

/-- Model of `handle_lseek` (server.c): read fd, signed offset, whence. -/
def handle_lseek (o : HOracle) (c : Conn) : HandlerOut :=
  andThenT (read_data_of_type .UINT32 c) fun fdI c1 =>
  andThenT (read_data_of_type .INT32 c1) fun offsetI c2 =>
  andThenT (read_data_of_type .UINT32 c2) fun whenceI c3 =>
    ⟨RP_SUCCESS, if o.ret = -1 then o.err else 0,
      resultFrames o.ret o.err, c3,
      [.lseekFd fdI.toNat offsetI whenceI.toNat]⟩

/-- Model of `handle_checksum` (server.c): read fd and block size, run
`genChecksum` over the worker's file, send the 16-bit result and — were
it `-1`, which the always-succeeding file model rules out — an errno
frame. -/
def handle_checksum (o : HOracle) (c : Conn) : HandlerOut :=
  andThenT (read_data_of_type .UINT32 c) fun fdI c1 =>
  andThenT (read_data_of_type .UINT32 c1) fun bsI c2 =>
    ⟨RP_SUCCESS,
      if (genChecksum o.file 0 bsI.toNat).1 = -1 then o.err else 0,
      send_data_of_type .INT16 (genChecksum o.file 0 bsI.toNat).1
        :: (if (genChecksum o.file 0 bsI.toNat).1 = -1
            then [send_data_of_type .INT32 o.err] else []),
      c2, [.checksumFd fdI.toNat bsI.toNat]⟩

/-- Dispatch by call code, as the `switch (call_type)` in the worker
loop of server.c's `main` (OPEN_CALL=1 … CHECKSUM_CALL=6). -/
def dispatchCall (code : Nat) (o : HOracle) (c : Conn) : Option HandlerOut :=
  if code = 1 then some (handle_open o c)
  else if code = 2 then some (handle_close o c)
  else if code = 3 then some (handle_read o c)
  else if code = 4 then some (handle_write o c)
  else if code = 5 then some (handle_lseek o c)
  else if code = 6 then some (handle_checksum o c)
  else none

/-- One iteration of the worker loop up to and including the handler:
read the call-code frame (`closedStep` when the connection-closed
condition is observed there, `readErrStep` on a transport error),
`ntohl` it and dispatch. -/
inductive StepRes where
  | closedStep
  | readErrStep (e : Int)
  | dispatched (code : Nat) (out : HandlerOut)
  | badCall (code : Nat) (c1 : Conn)
deriving DecidableEq, Repr

def workerStep (o : HOracle) (c : Conn) : StepRes :=
  match read_from_connection c with
  | (.closed, _) => .closedStep
  | (.terr e, _) => .readErrStep e
  | (.ok _ payload, c1) =>
      match dispatchCall (beVal32 payload) o c1 with
      | some out => .dispatched (beVal32 payload) out
      | none => .badCall (beVal32 payload) c1

def defaultOracle : HOracle := ⟨0, 0, [], []⟩

/-- Model of the worker loop in server.c's `main` (child side), with an
explicit fuel bound on the number of iterations and one oracle per
dispatched request.  `status` starts at `RP_SUCCESS`.  On the
connection-closed condition at the call-code read the loop breaks with
`status` unchanged; on a transport error there it breaks with status
`-1`; after a handler it breaks iff `status == -1 || errno ==
CONNECTION_CLOSED`; on an unknown code it sets
`errno = SERVER_INVALID_CALL_TYPE` (status unchanged) and re-enters.
The value returned is the child's exit status. -/
def workerLoop : Nat → List HOracle → Conn → Int → Int
  | 0, _, _, status => status
  | fuel + 1, oracles, c, status =>
      match workerStep (oracles.headD defaultOracle) c with
      | .closedStep => status
      | .readErrStep _ => -1
      | .dispatched _ out =>
          if out.status = -1 ∨ out.errno = CONNECTION_CLOSED then out.status
          else workerLoop fuel oracles.tail out.conn out.status
      | .badCall _ c1 =>
          if status = -1 then status else workerLoop fuel oracles c1 status

/-! ## Schema conformance: well-formed stub arguments and the expected
system call -/

/-- Representation well-formedness of a stub invocation: scalars fit
their C types, the pathname is a C string (no interior NUL), and for
read/write the count equals the number of buffer bytes put on the wire
and is nonzero (a zero count would send a zero-length frame, whose
framing-layer fate is settled separately). -/
def wf : RpcCall → Prop
  | .openC path flags mode =>
      (0 : Nat) ∉ path ∧ path.length + 1 < 2 ^ 32 ∧ flags < 2 ^ 32 ∧ mode < 2 ^ 32
  | .closeC fd => fd < 2 ^ 32
  | .readC fd buf count => fd < 2 ^ 32 ∧ count < 2 ^ 32 ∧ buf.length = count ∧ 0 < count
  | .writeC fd buf count => fd < 2 ^ 32 ∧ count < 2 ^ 32 ∧ buf.length = count ∧ 0 < count
  | .lseekC fd offset whence =>
      fd < 2 ^ 32 ∧ whence < 2 ^ 32 ∧ -(2 ^ 31) ≤ offset ∧ offset < 2 ^ 31
  | .checksumC fd block_size => fd < 2 ^ 32 ∧ block_size < 2 ^ 32

/-- Following the spec's words: the call code of each operation. -/
def callCode : RpcCall → Nat
  | .openC _ _ _ => 1
  | .closeC _ => 2
  | .readC _ _ _ => 3
  | .writeC _ _ _ => 4
  | .lseekC _ _ _ => 5
  | .checksumC _ _ => 6

/-- Following the spec's words: the real system call the matching
handler must perform for a stub invocation — `open` with the sent path
(terminator included), flags, and, exactly when the create bit is set,
the mode; and so on for the other calls. -/
def specOsCall : RpcCall → OsCall
  | .openC path flags mode =>
      if flags &&& O_CREAT ≠ 0 then .openCreate (path ++ [0]) flags mode
      else .openPlain (path ++ [0]) flags
  | .closeC fd => .closeFd fd
  | .readC fd _ count => .readFd fd count
  | .writeC fd buf count => .writeFd fd buf count
  | .lseekC fd offset whence => .lseekFd fd offset whence
  | .checksumC fd block_size => .checksumFd fd block_size

theorem genChecksum_eq (content : List Nat) (pos : Nat) (block_size : Nat)
    (hbs : 0 < block_size) (hbytes : ∀ b ∈ content, b < 256) :
    genChecksum content pos block_size
      = (((content.foldl Nat.xor 0 : Nat) : Int), (content, 0)) := by
  unfold genChecksum
  rw [checksumLoop_eq content block_size hbs 0 0, List.drop_zero]
  have hlt : content.foldl Nat.xor 0 < 256 := foldl_xor_lt_256 content 0 (by omega) hbytes
  unfold ofI16
  rw [if_pos (by omega)]
  congr 1
  omega

theorem read_i16_frame (v : Int) (fs : List (List Nat))
    (h1 : -(2 ^ 15) ≤ v) (h2 : v < 2 ^ 15) :
    read_data_of_type .INT16 (connOfFrames (beBytes16 (toU16 v) :: fs))
      = (.ok v, connOfFrames fs) := by
  rw [read_data_of_type_frame .INT16 (beBytes16 (toU16 v)) fs
    (by simp [beBytes16]) (by simp [beBytes16])]
  rw [beVal16_beBytes16, show toU16 v % 2 ^ 16 = toU16 v by unfold toU16; omega]
  rw [ofI16_toU16 v h1 h2]

/-! ## The claims -/

/-- C1: the claim states that after a WRITE call the write handler sends
no data frame back after the result frame (the client expects only
`result:i32` and, iff it is `-1`, one errno frame).  The code violates
this: on a WRITE of the 2-byte buffer `"hi"` whose `write(2)` returns 2,
`handle_write` emits the result frame `[0,0,0,2]` and then a second,
data frame `[104,105]` copying the buffer — a frame `rp_write` never
reads. -/
theorem c1_write_handler_sends_data_frame :
    (handle_write ⟨2, 0, [], []⟩ (connOfFrames [beBytes32 3, [104, 105], beBytes32 2])).emitted
      = [[0, 0, 0, 2], [104, 105]] := by decide

/-- C2, counterexample: the claim states that a frame with length
header 0 is valid — `receiveFrame` returns an empty payload and does not
report the connection-closed condition.  In fact, on the connection
carrying exactly the 8 header bytes of a zero-length frame, the payload
`read` of 0 bytes returns 0 and the code takes that for a closed
connection: the result is `closed` (NULL with
`errno = CONNECTION_CLOSED`), not an empty `ok` payload. -/
theorem c2_counterexample :
    read_from_connection ⟨[.bytes [0, 0, 0, 0, 0, 0, 0, 0]]⟩ = (.closed, ⟨[]⟩)
    ∧ RecvRes.closed ≠ RecvRes.ok 0 [] := by decide

/-- C2, amended: a zero-length frame is not distinguished from peer
shutdown — whatever else is pending on the connection, `receiveFrame`
applied to a frame whose length header is 0 performs a zero-byte payload
read, which yields zero bytes, and therefore reports the
connection-closed condition instead of returning an empty payload. -/
theorem c2_zero_frame_reports_closed (rest : List Chunk) :
    (read_from_connection ⟨.bytes (encLen 0) :: rest⟩).1 = .closed := by
  unfold read_from_connection
  rw [sysRead_bytes_all (encLen 0) rest 8 (by decide) (by decide)]
  show (readPayload (decLen (encLen 0)) ⟨rest⟩).1 = RecvRes.closed
  rw [decLen_encLen]
  unfold readPayload
  rw [show (0 : Nat) % 2 ^ 32 = 0 by decide, sysRead_zero]

/-- C3, counterexample: the claim states that for a frame with length
header `n > 0` the receiver retries short reads until `n` bytes are
read.  In fact there is no retry: with header 2 and the payload
delivered in two 1-byte reads, `read_from_connection` returns after the
first payload read with the single byte `[170]` (in a buffer `malloc`ed
for 2), leaving the second byte `[187]` unconsumed on the connection. -/
theorem c3_counterexample :
    read_from_connection ⟨[.bytes (encLen 2), .bytes [170], .bytes [187]]⟩
      = (.ok 2 [170], ⟨[.bytes [187]]⟩)
    ∧ ([170] : List Nat).length ≠ 2 := by decide

/-- C3, amended: `receiveFrame` performs exactly one payload read.  When
that read delivers the whole `n`-byte payload the caller receives
exactly those `n` bytes; when it delivers fewer (a short read), the
function returns at once with only the delivered bytes, the remainder of
the payload left pending — it does not retry. -/
theorem c3_single_read_no_retry :
    (∀ (p : List Nat) (rest : List Chunk), p ≠ [] → p.length < 2 ^ 32 →
      (read_from_connection ⟨.bytes (encLen p.length) :: .bytes p :: rest⟩).1
        = .ok p.length p)
    ∧ (∀ (p q : List Nat) (rest : List Chunk) (n : Nat),
        p ≠ [] → p.length < n → n < 2 ^ 32 →
      read_from_connection ⟨.bytes (encLen n) :: .bytes p :: .bytes q :: rest⟩
        = (.ok n p, ⟨.bytes q :: rest⟩)) := by
  constructor
  · intro p rest hne hlt
    obtain ⟨a, as, rfl⟩ : ∃ a as, p = a :: as := by
      cases p with
      | nil => exact absurd rfl hne
      | cons a as => exact ⟨a, as, rfl⟩
    unfold read_from_connection
    rw [sysRead_bytes_all (encLen (a :: as).length) _ 8 (by decide) (encLen_length _).le]
    show (readPayload (decLen (encLen (a :: as).length)) _).1 = _
    rw [decLen_encLen, Nat.mod_eq_of_lt hlt]
    unfold readPayload
    rw [sysRead_bytes_all (a :: as) _ (a :: as).length (by simp) le_rfl]
  · intro p q rest n hne hlt hn
    obtain ⟨a, as, rfl⟩ : ∃ a as, p = a :: as := by
      cases p with
      | nil => exact absurd rfl hne
      | cons a as => exact ⟨a, as, rfl⟩
    unfold read_from_connection
    rw [sysRead_bytes_all (encLen n) _ 8 (by decide) (encLen_length _).le]
    show readPayload (decLen (encLen n)) _ = _
    rw [decLen_encLen, Nat.mod_eq_of_lt hn]
    unfold readPayload
    rw [sysRead_bytes_all (a :: as) _ n (by omega) (by omega)]

/-- Witness for the amended C3 theorem at concrete inputs: a 2-byte
payload delivered whole is received whole; delivered as 1-byte chunks,
only the first byte is received and the second stays pending. -/
theorem c3_single_read_no_retry_witness :
    ([170, 187] : List Nat) ≠ []
    ∧ (read_from_connection ⟨[.bytes (encLen 2), .bytes [170, 187]]⟩).1 = .ok 2 [170, 187]
    ∧ read_from_connection ⟨[.bytes (encLen 2), .bytes [170], .bytes [187]]⟩
        = (.ok 2 [170], ⟨[.bytes [187]]⟩) :=
  ⟨by decide,
   c3_single_read_no_retry.1 [170, 187] [] (by decide) (by decide),
   c3_single_read_no_retry.2 [170] [187] [] 2 (by decide) (by decide) (by decide)⟩

/-- C4: the claim states that every stub, `rp_checksum` included, reacts
to a `-1` primary result by receiving one errno frame and setting the
local `errno` to it.  The code violates this for CHECKSUM: the sentinel
test in `recieve_result` does `memcpy(&result, result_buffer, 4)` on
`rp_checksum`'s 2-byte `int16_t` buffer, so the compared 32-bit value is
`0x0000FFFF` (with zero out-of-bounds bytes), not `-1`: on the wire
below the primary result decodes to `-1` and the server's errno frame
(value 2) is pending, yet the stub returns success with `errno` never
set and the errno frame left unconsumed. -/
theorem c4_checksum_sentinel_missed :
    recieve_result .INT16 0 (connOfFrames [[255, 255], [0, 0, 0, 2]])
      = (.okv (-1) none, connOfFrames [[0, 0, 0, 2]]) := by decide

/-- C8: when the length-header read yields zero bytes the receive
reports the distinguished connection-closed condition (not a transport
error), and a worker that observes this at its call-code read leaves the
request loop with its status still `RP_SUCCESS = 0`, for any remaining
fuel and any oracle list. -/
theorem c8_closed_connection_clean_exit (fuel : Nat) (oracles : List HOracle) :
    (read_from_connection ⟨[]⟩).1 = .closed
    ∧ workerLoop (fuel + 1) oracles ⟨[]⟩ RP_SUCCESS = RP_SUCCESS := by
  constructor
  · rfl
  · show (match workerStep (oracles.headD defaultOracle) ⟨[]⟩ with
      | .closedStep => RP_SUCCESS
      | .readErrStep _ => -1
      | .dispatched _ out =>
          if out.status = -1 ∨ out.errno = CONNECTION_CLOSED then out.status
          else workerLoop fuel oracles.tail out.conn out.status
      | .badCall _ c1 =>
          if RP_SUCCESS = -1 then RP_SUCCESS else workerLoop fuel oracles c1 RP_SUCCESS)
      = RP_SUCCESS
    rw [show workerStep (oracles.headD defaultOracle) ⟨[]⟩ = .closedStep from rfl]

/-- C10: the claim states that when `rp_read`'s primary result is a
positive count but the data frame cannot be received, `rp_read` detects
the failure and returns `-1`.  The code violates this: with a primary
result frame of 5 followed by nothing (peer gone), the unchecked
`read_from_connection` result is NULL and execution reaches
`memcpy(buffer, NULL, 5)` — undefined behaviour — instead of any `-1`
return. -/
theorem c10_rp_read_null_deref :
    rp_read_recv [0, 0, 0, 0, 0] (connOfFrames [beBytes32 5]) = (.nullDeref, ⟨[]⟩) := by
  decide

/-- Value ranges of the supported wire types: signed 32-bit, unsigned
32-bit, signed 16-bit. -/
def inRange (t : var_type) (v : Int) : Prop :=
  match t with
  | .INT32 => -(2 ^ 31) ≤ v ∧ v < 2 ^ 31
  | .UINT32 => 0 ≤ v ∧ v < 2 ^ 32
  | .INT16 => -(2 ^ 15) ≤ v ∧ v < 2 ^ 15

/-- C6: for each supported width and signedness and every representable
value (boundaries included), decoding an encoded value returns the
original value — `read_data_of_type` applied to the frame produced by
`send_data_of_type` yields `v` back, consuming exactly that frame. -/
theorem c6_decode_encode_roundtrip (t : var_type) (v : Int) (h : inRange t v) :
    read_data_of_type t (connOfFrames [send_data_of_type t v])
      = (.ok v, connOfFrames []) := by
  cases t with
  | INT32 => exact read_i32_frame v [] h.1 h.2
  | UINT32 =>
      show read_data_of_type .UINT32 (connOfFrames [beBytes32 (toU32 v)]) = _
      rw [read_u32_frame (toU32 v) [] (toU32_lt v)]
      rw [show ((toU32 v : Nat) : Int) = v by
        unfold toU32
        have h1 := h.1
        have h2 := h.2
        omega]
  | INT16 => exact read_i16_frame v [] h.1 h.2

/-- Witness for C6 at the boundary values `INT32_MIN`, `-1` at 16 bits,
and `UINT32_MAX`. -/
theorem c6_decode_encode_roundtrip_witness :
    (inRange .INT32 (-2147483648)
      ∧ read_data_of_type .INT32 (connOfFrames [send_data_of_type .INT32 (-2147483648)])
          = (.ok (-2147483648), connOfFrames []))
    ∧ (read_data_of_type .INT16 (connOfFrames [send_data_of_type .INT16 (-1)])
          = (.ok (-1), connOfFrames []))
    ∧ (read_data_of_type .UINT32 (connOfFrames [send_data_of_type .UINT32 4294967295])
          = (.ok 4294967295, connOfFrames [])) :=
  ⟨⟨⟨by decide, by decide⟩,
    c6_decode_encode_roundtrip .INT32 (-2147483648) ⟨by decide, by decide⟩⟩,
   c6_decode_encode_roundtrip .INT16 (-1) ⟨by decide, by decide⟩,
   c6_decode_encode_roundtrip .UINT32 4294967295 ⟨by decide, by decide⟩⟩

/-- C7: for any file content, initial cursor and block size > 0,
computing the checksum twice in succession yields identical results, and
each computation leaves the file's read cursor at offset 0 (the function
rewinds with `lseek(fd, 0, SEEK_SET)` both before and after the block
loop). -/
theorem c7_checksum_idempotent (content : List Nat) (p block_size : Nat)
    (h : 0 < block_size) :
    (genChecksum content p block_size).1
        = (genChecksum (genChecksum content p block_size).2.1
            (genChecksum content p block_size).2.2 block_size).1
    ∧ (genChecksum content p block_size).2.2 = 0
    ∧ (genChecksum (genChecksum content p block_size).2.1
        (genChecksum content p block_size).2.2 block_size).2.2 = 0 :=
  ⟨rfl, rfl, rfl⟩

/-- Witness for C7 on the file `[1, 2, 3]` with cursor 5 and block
size 2. -/
theorem c7_checksum_idempotent_witness :
    (0 : Nat) < 2
    ∧ ((genChecksum [1, 2, 3] 5 2).1
          = (genChecksum (genChecksum [1, 2, 3] 5 2).2.1
              (genChecksum [1, 2, 3] 5 2).2.2 2).1
      ∧ (genChecksum [1, 2, 3] 5 2).2.2 = 0
      ∧ (genChecksum (genChecksum [1, 2, 3] 5 2).2.1
          (genChecksum [1, 2, 3] 5 2).2.2 2).2.2 = 0) :=
  ⟨by decide, c7_checksum_idempotent [1, 2, 3] 5 2 (by decide)⟩

/-- C9: for every byte content and block size ≥ 1, `genChecksum` returns
the byte-wise XOR of all the file's bytes — a value independent of the
block size that lies in `[0, 255]` and in particular never equals the
`-1` failure sentinel. -/
theorem c9_checksum_is_xor (content : List Nat) (p block_size : Nat)
    (h1 : 1 ≤ block_size) (h2 : ∀ b ∈ content, b < 256) :
    (genChecksum content p block_size).1 = ((content.foldl Nat.xor 0 : Nat) : Int)
    ∧ 0 ≤ (genChecksum content p block_size).1
    ∧ (genChecksum content p block_size).1 ≤ 255
    ∧ (genChecksum content p block_size).1 ≠ -1 := by
  have he := genChecksum_eq content p block_size h1 h2
  have hb : content.foldl Nat.xor 0 < 256 := foldl_xor_lt_256 content 0 (by omega) h2
  refine ⟨by rw [he], by rw [he]; omega, by rw [he]; omega, by rw [he]; omega⟩

/-- Witness for C9 on the file `"hi"` (`[104, 105]`) with block size 1:
the checksum is `104 XOR 105 = 1`. -/
theorem c9_checksum_is_xor_witness :
    ((1 : Nat) ≤ 1 ∧ ∀ b ∈ ([104, 105] : List Nat), b < 256)
    ∧ ((genChecksum [104, 105] 7 1).1 = ((([104, 105] : List Nat).foldl Nat.xor 0 : Nat) : Int)
      ∧ 0 ≤ (genChecksum [104, 105] 7 1).1
      ∧ (genChecksum [104, 105] 7 1).1 ≤ 255
      ∧ (genChecksum [104, 105] 7 1).1 ≠ -1) :=
  ⟨⟨by decide, by decide⟩, c9_checksum_is_xor [104, 105] 7 1 (by decide) (by decide)⟩

theorem workerStep_open (o : HOracle) (fs : List (List Nat)) :
    workerStep o (connOfFrames (beBytes32 1 :: fs))
      = .dispatched 1 (handle_open o (connOfFrames fs)) := rfl

theorem workerStep_close (o : HOracle) (fs : List (List Nat)) :
    workerStep o (connOfFrames (beBytes32 2 :: fs))
      = .dispatched 2 (handle_close o (connOfFrames fs)) := rfl

theorem workerStep_read (o : HOracle) (fs : List (List Nat)) :
    workerStep o (connOfFrames (beBytes32 3 :: fs))
      = .dispatched 3 (handle_read o (connOfFrames fs)) := rfl

theorem workerStep_write (o : HOracle) (fs : List (List Nat)) :
    workerStep o (connOfFrames (beBytes32 4 :: fs))
      = .dispatched 4 (handle_write o (connOfFrames fs)) := rfl

theorem workerStep_lseek (o : HOracle) (fs : List (List Nat)) :
    workerStep o (connOfFrames (beBytes32 5 :: fs))
      = .dispatched 5 (handle_lseek o (connOfFrames fs)) := rfl

theorem workerStep_checksum (o : HOracle) (fs : List (List Nat)) :
    workerStep o (connOfFrames (beBytes32 6 :: fs))
      = .dispatched 6 (handle_checksum o (connOfFrames fs)) := rfl

/-- C5: for every call code, the ordered sequence of argument frames
sent by the client stub is exactly the sequence consumed by the matching
server handler: dispatch by the sent call code reaches the matching
handler, the handler consumes every sent frame (the connection is left
empty) and performs its one real operation with exactly the sent
argument values — in particular for OPEN the sequence is path (with
terminator), flags, and a mode frame present if and only if the
`O_CREAT` bit is set in flags, on both sides. -/
theorem c5_argument_schema_matches (call : RpcCall) (o : HOracle) (h : wf call) :
    ∃ out : HandlerOut,
      workerStep o (connOfFrames (clientFrames call)) = .dispatched (callCode call) out
      ∧ out.conn = connOfFrames []
      ∧ out.calls = [specOsCall call]
      ∧ out.status = RP_SUCCESS := by
  cases call with
  | openC path flags mode =>
      obtain ⟨hp, hplen, hf, hm⟩ := h
      by_cases hc : flags &&& O_CREAT ≠ 0
      · have hmain : workerStep o (connOfFrames (clientFrames (.openC path flags mode)))
            = .dispatched 1 ⟨RP_SUCCESS, if o.ret = -1 then o.err else 0,
                resultFrames o.ret o.err, connOfFrames [],
                [.openCreate (path ++ [0]) flags mode]⟩ := by
          simp only [clientFrames, if_pos hc, List.cons_append, List.nil_append]
          rw [workerStep_open]
          congr 1
          rw [handle_open,
            read_from_connection_frame (path ++ [0]) (beBytes32 flags :: [beBytes32 mode])
              (by simp) (by simpa using hplen),
            andThenR_ok,
            read_u32_frame flags [beBytes32 mode] hf, andThenT_ok]
          simp only [Int.toNat_ofNat]
          rw [if_pos hc, read_u32_frame mode [] hm, andThenT_ok]
          simp only [Int.toNat_ofNat]
        exact ⟨_, hmain, rfl, by simp only [specOsCall, if_pos hc], rfl⟩
      · have hmain : workerStep o (connOfFrames (clientFrames (.openC path flags mode)))
            = .dispatched 1 ⟨RP_SUCCESS, if o.ret = -1 then o.err else 0,
                resultFrames o.ret o.err, connOfFrames [],
                [.openPlain (path ++ [0]) flags]⟩ := by
          simp only [clientFrames, if_neg hc, List.cons_append, List.nil_append,
            List.append_nil]
          rw [workerStep_open]
          congr 1
          rw [handle_open,
            read_from_connection_frame (path ++ [0]) [beBytes32 flags]
              (by simp) (by simpa using hplen),
            andThenR_ok,
            read_u32_frame flags [] hf, andThenT_ok]
          simp only [Int.toNat_ofNat]
          rw [if_neg hc]
        exact ⟨_, hmain, rfl, by simp only [specOsCall, if_neg hc], rfl⟩
  | closeC fd =>
      have hmain : workerStep o (connOfFrames (clientFrames (.closeC fd)))
          = .dispatched 2 ⟨RP_SUCCESS, if o.ret = -1 then o.err else 0,
              resultFrames o.ret o.err, connOfFrames [], [.closeFd fd]⟩ := by
        simp only [clientFrames]
        rw [workerStep_close]
        congr 1
        rw [handle_close, read_u32_frame fd [] h, andThenT_ok]
        simp only [Int.toNat_ofNat]
      exact ⟨_, hmain, rfl, rfl, rfl⟩
  | readC fd buf count =>
      obtain ⟨h1, h2, h3, h4⟩ := h
      have hmain : workerStep o (connOfFrames (clientFrames (.readC fd buf count)))
          = .dispatched 3 ⟨RP_SUCCESS, if o.ret = -1 then o.err else 0,
              send_data_of_type .INT32 o.ret
                :: ((if o.ret > 0
                     then [(o.data ++ buf.drop o.data.length).take o.ret.toNat]
                     else [])
                  ++ (if o.ret = -1 then [send_data_of_type .INT32 o.err] else [])),
              connOfFrames [], [.readFd fd count]⟩ := by
        simp only [clientFrames]
        rw [workerStep_read]
        congr 1
        rw [handle_read,
          read_u32_frame fd (buf :: [beBytes32 count]) h1, andThenT_ok,
          read_from_connection_frame buf [beBytes32 count]
            (List.length_pos.mp (by omega)) (by omega),
          andThenR_ok,
          read_u32_frame count [] h2, andThenT_ok]
        simp only [Int.toNat_ofNat]
      exact ⟨_, hmain, rfl, rfl, rfl⟩
  | writeC fd buf count =>
      obtain ⟨h1, h2, h3, h4⟩ := h
      have hmain : workerStep o (connOfFrames (clientFrames (.writeC fd buf count)))
          = .dispatched 4 ⟨RP_SUCCESS, if o.ret = -1 then o.err else 0,
              send_data_of_type .INT32 o.ret
                :: ((if o.ret > 0 then [buf.take o.ret.toNat] else [])
                  ++ (if o.ret = -1 then [send_data_of_type .INT32 o.err] else [])),
              connOfFrames [], [.writeFd fd buf count]⟩ := by
        simp only [clientFrames]
        rw [workerStep_write]
        congr 1
        rw [handle_write,
          read_u32_frame fd (buf :: [beBytes32 count]) h1, andThenT_ok,
          read_from_connection_frame buf [beBytes32 count]
            (List.length_pos.mp (by omega)) (by omega),
          andThenR_ok,
          read_u32_frame count [] h2, andThenT_ok]
        simp only [Int.toNat_ofNat]
      exact ⟨_, hmain, rfl, rfl, rfl⟩
  | lseekC fd offset whence =>
      obtain ⟨h1, h2, h3, h4⟩ := h
      have hmain : workerStep o (connOfFrames (clientFrames (.lseekC fd offset whence)))
          = .dispatched 5 ⟨RP_SUCCESS, if o.ret = -1 then o.err else 0,
              resultFrames o.ret o.err, connOfFrames [],
              [.lseekFd fd offset whence]⟩ := by
        simp only [clientFrames]
        rw [workerStep_lseek]
        congr 1
        rw [handle_lseek,
          read_u32_frame fd (beBytes32 (toU32 offset) :: [beBytes32 whence]) h1, andThenT_ok,
          read_i32_frame offset [beBytes32 whence] h3 h4, andThenT_ok,
          read_u32_frame whence [] h2, andThenT_ok]
        simp only [Int.toNat_ofNat]
      exact ⟨_, hmain, rfl, rfl, rfl⟩
  | checksumC fd block_size =>
      obtain ⟨h1, h2⟩ := h
      have hmain : workerStep o (connOfFrames (clientFrames (.checksumC fd block_size)))
          = .dispatched 6 ⟨RP_SUCCESS,
              if (genChecksum o.file 0 block_size).1 = -1 then o.err else 0,
              send_data_of_type .INT16 (genChecksum o.file 0 block_size).1
                :: (if (genChecksum o.file 0 block_size).1 = -1
                    then [send_data_of_type .INT32 o.err] else []),
              connOfFrames [], [.checksumFd fd block_size]⟩ := by
        simp only [clientFrames]
        rw [workerStep_checksum]
        congr 1
        rw [handle_checksum,
          read_u32_frame fd [beBytes32 block_size] h1, andThenT_ok,
          read_u32_frame block_size [] h2, andThenT_ok]
        simp only [Int.toNat_ofNat]
      exact ⟨_, hmain, rfl, rfl, rfl⟩

/-- Witness for C5: an OPEN with the create bit set (`flags = O_CREAT`),
path `"hi"`, mode 7, against an oracle whose `open` returns 2. -/
theorem c5_argument_schema_matches_witness :
    wf (.openC [104, 105] 64 7)
    ∧ ∃ out : HandlerOut,
        workerStep ⟨2, 0, [], []⟩ (connOfFrames (clientFrames (.openC [104, 105] 64 7)))
          = .dispatched (callCode (.openC [104, 105] 64 7)) out
        ∧ out.conn = connOfFrames []
        ∧ out.calls = [specOsCall (.openC [104, 105] 64 7)]
        ∧ out.status = RP_SUCCESS :=
  ⟨⟨by decide, by decide, by decide, by decide⟩,
   c5_argument_schema_matches (.openC [104, 105] 64 7) ⟨2, 0, [], []⟩
     ⟨by decide, by decide, by decide, by decide⟩⟩

end RPCVerify
